import Mathlib

/-!
Verification of the UAVCAN/CAN transmit pipeline (`canadensis_can/src/tx.rs`).

The file embeds the transmit pipeline in Lean: the transfer-CRC, the
segmenter (`Breakdown`), the frame-count/padding calculation, the CAN
identifier encoder (`make_can_id`, `make_pseudo_id`) and the transmitter
`push` operation over a bounded frame queue.  Pieces of the crate that are
not part of the provided source (the `Breakdown` implementation, the
`TransferCrc` implementation, `calculate_frame_stats`, the `NodeId`
helpers, the `Mtu` enumeration and `CanId::try_from`) are modelled from
the specification text, as indicated in their doc comments.
-/

namespace CanTx

/-- Modelled from the spec: the `Mtu` enumeration (`canadensis_can`'s `Mtu`
is not part of the provided source).  "Classic CAN: 8. CAN FD: 12, 16, 20,
24, 32, 48, 64. Only these values are valid payload capacities." -/
inductive Mtu
  | can8
  | canFd12
  | canFd16
  | canFd20
  | canFd24
  | canFd32
  | canFd48
  | canFd64
deriving DecidableEq

/-- Numeric value of an `Mtu` (the Rust code stores `mtu as usize`). -/
def Mtu.toNat : Mtu → Nat
  | .can8 => 8
  | .canFd12 => 12
  | .canFd16 => 16
  | .canFd20 => 20
  | .canFd24 => 24
  | .canFd32 => 32
  | .canFd48 => 48
  | .canFd64 => 64

/-- The MTU values supported by the transport, per the spec's data model. -/
def SupportedMtu (m : Nat) : Prop :=
  m = 8 ∨ m = 12 ∨ m = 16 ∨ m = 20 ∨ m = 24 ∨ m = 32 ∨ m = 48 ∨ m = 64

instance (m : Nat) : Decidable (SupportedMtu m) := by
  unfold SupportedMtu; infer_instance

/-- Modelled from the spec: one step of the CRC-16/CCITT-FALSE bit loop
(`TransferCrc` lives in `canadensis_can/src/crc.rs`, which is not part of
the provided source).  "CRC-16/CCITT-FALSE, polynomial 0x1021, initial
value 0xFFFF, no reflection, no final XOR."  The state is a 16-bit value;
a left shift wraps modulo 2^16 before the conditional polynomial XOR. -/
def crc_shift (v : Nat) : Nat :=
  if 0x8000 ≤ v then ((v * 2) % 0x10000) ^^^ 0x1021 else (v * 2) % 0x10000

/-- Modelled from the spec: folding one input byte into the CRC state:
XOR the byte into the high byte of the state, then run eight shift steps. -/
def crc_add (state byte : Nat) : Nat :=
  crc_shift^[8] (state ^^^ ((byte % 256) * 256))

/-- Modelled from the spec: the transfer CRC of a byte sequence, starting
from the initial value 0xFFFF with no final XOR. -/
def crc16 (bytes : List Nat) : Nat :=
  bytes.foldl crc_add 0xFFFF

/-- Tail byte of a frame: `start_of_transfer` in bit 7, `end_of_transfer`
in bit 6, `toggle` in bit 5, the 5-bit transfer-id in bits 4..0
(spec section 3; the field packing itself is part of the segmenter, which
is modelled from the spec). -/
def tail_byte (s e t : Bool) (tid : Nat) : Nat :=
  (if s then 128 else 0) + (if e then 64 else 0) + (if t then 32 else 0) + tid % 32

/-- Bit 7 of a tail byte: `start_of_transfer`. -/
def tail_start (b : Nat) : Nat := b / 128 % 2

/-- Bit 6 of a tail byte: `end_of_transfer`. -/
def tail_end (b : Nat) : Nat := b / 64 % 2

/-- Bit 5 of a tail byte: `toggle`. -/
def tail_toggle (b : Nat) : Nat := b / 32 % 2

/-- Bits 4..0 of a tail byte: the transfer-id field. -/
def tail_tid (b : Nat) : Nat := b % 32

/-- Modelled from the spec: the segmenter state (`tx::breakdown::Breakdown`
is not part of the provided source).  Section 4.2: a byte accumulator with
frame capacity `mtu`, of which `mtu - 1` bytes are usable for data, plus
the count of frames already emitted (for the toggle) and a first-frame
flag. -/
structure Breakdown where
  mtu : Nat
  transfer_id : Nat
  buffer : List Nat
  frame_index : Nat
  is_first : Bool
deriving DecidableEq

/-- Modelled from the spec: `Breakdown::new(mtu, transfer_id)`
(construction inputs `mtu` and the transfer-id, 5 bits retained; the
5-bit truncation is applied when the tail byte is packed). -/
def Breakdown.new (mtu tid : Nat) : Breakdown :=
  { mtu := mtu, transfer_id := tid, buffer := [], frame_index := 0, is_first := true }

/-- Seal the current buffer into a frame: append the tail byte with
`start = is_first`, the given `end` flag, and
`toggle = (frame_index % 2 == 0)` (first frame toggle = 1, then
alternating), per spec section 4.2. -/
def Breakdown.seal (b : Breakdown) (e : Bool) : List Nat :=
  b.buffer ++ [tail_byte b.is_first e (decide (b.frame_index % 2 = 0)) b.transfer_id]

/-- Modelled from the spec: `Breakdown::add`.  When a byte arrives and the
buffer already holds the full `mtu - 1` data bytes, the buffer is sealed
as a non-final frame and the new byte starts the next frame; otherwise the
byte is appended.  (Sealing happens on arrival of the next byte, so that a
stream whose length is an exact multiple of `mtu - 1` ends with a full
final frame, as required by the frame-count formula of spec section 4.3
and by scenario S3, whose two-frame transfer ends with a full final
frame.) -/
def Breakdown.add (b : Breakdown) (byte : Nat) : Option (List Nat) × Breakdown :=
  if b.buffer.length = b.mtu - 1 then
    (some (b.seal false),
      { b with buffer := [byte], frame_index := b.frame_index + 1, is_first := false })
  else
    (none, { b with buffer := b.buffer ++ [byte] })

/-- Modelled from the spec: `Breakdown::finish` seals the remaining bytes
as the final frame (`end = 1`). -/
def Breakdown.finish (b : Breakdown) : List Nat :=
  b.seal true

/-- The `for byte in payload_and_padding` loop of `push_inner`: feed a
byte sequence through the segmenter, collecting the sealed frames in
emission order together with the final segmenter state. -/
def feed : Breakdown → List Nat → List (List Nat) × Breakdown
  | b, [] => ([], b)
  | b, byte :: rest =>
    match b.add byte with
    | (some fd, b2) =>
      let r := feed b2 rest
      (fd :: r.1, r.2)
    | (none, b2) => feed b2 rest

/-- Result of `calculate_frame_stats`: the number of frames a transfer
needs and the number of trailing zero padding bytes. -/
structure FrameStats where
  frames : Nat
  last_frame_padding : Nat
deriving DecidableEq

/-- Modelled from the spec: `crate::calculate_frame_stats` (not part of
the provided source).  Section 4.3, step 1, with `U = mtu - 1`: if the
payload fits in one frame (`P ≤ U`) then one frame and no padding;
otherwise `padding = (−(P + 2)) mod U` (zero padding so that the payload
plus the 2-byte CRC is a multiple of `U`) and
`frames = (P + padding + 2) / U`. -/
def calculate_frame_stats (payload_length mtu : Nat) : FrameStats :=
  if payload_length ≤ mtu - 1 then
    { frames := 1, last_frame_padding := 0 }
  else
    { frames :=
        (payload_length +
          ((mtu - 1) - (payload_length + 2) % (mtu - 1)) % (mtu - 1) + 2) / (mtu - 1),
      last_frame_padding := ((mtu - 1) - (payload_length + 2) % (mtu - 1)) % (mtu - 1) }

/-- The frame data sequences produced by one `push_inner` call, in
enqueue order: the payload followed by the zero padding is fed through
the segmenter (with the CRC running over it); if at least one frame was
sealed, the two CRC bytes (most significant first; each `as u8` cast
keeps the low 8 bits) are fed as well; finally the segmenter is finished
and the last frame appended. -/
def transfer_frames (payload : List Nat) (mtu tid : Nat) : List (List Nat) :=
  let stats := calculate_frame_stats payload.length mtu
  let payload_and_padding := payload ++ List.replicate stats.last_frame_padding 0
  let crc := crc16 payload_and_padding
  let r1 := feed (Breakdown.new mtu tid) payload_and_padding
  let r2 :=
    if r1.1.length ≠ 0 then feed r1.2 [crc / 256 % 256, crc % 256]
    else (([] : List (List Nat)), r1.2)
  r1.1 ++ r2.1 ++ [r2.2.finish]

/-- The byte stream a multi-frame transfer serializes: the payload, the
zero padding, then the two transfer-CRC bytes (most significant first)
computed over payload plus padding. -/
def total_stream (payload : List Nat) (pad : Nat) : List Nat :=
  payload ++ List.replicate pad 0 ++
    [crc16 (payload ++ List.replicate pad 0) / 256 % 256,
      crc16 (payload ++ List.replicate pad 0) % 256]

/-- Modelled from the spec: `NodeId::is_diagnostic_reserved`
(`canadensis_core`'s `NodeId` is not part of the provided source).  The
diagnostic-reserved range is the contiguous range at the top of the 7-bit
node-id space designated by the external specification: node-ids 126 and
127. -/
def is_diagnostic_reserved (id : Nat) : Bool :=
  126 ≤ id

/-- The decrement loop of `make_pseudo_id`: while the id is
diagnostic-reserved, decrement it by 1.  On the 7-bit values produced by
`NodeId::from_truncating` this matches the source loop step by step
(0 is not reserved, so the loop never reaches an underflowing
subtraction). -/
def skip_reserved : Nat → Nat
  | 0 => 0
  | n + 1 => if is_diagnostic_reserved (n + 1) then skip_reserved n else n + 1

/-- `make_pseudo_id` from `tx.rs`: XOR-fold the payload bytes starting
from 0x55 (u8 arithmetic), truncate to a node-id
(`NodeId::from_truncating`, modelled from the spec as truncation to
7 bits), then decrement while the value is diagnostic-reserved. -/
def make_pseudo_id (payload : List Nat) : Nat :=
  let bits := payload.foldl (fun state b => state ^^^ (b % 256)) 0x55
  skip_reserved (bits % 128)

/-- Transfer priority, service-id, source and destination node-id and
transfer-id of a service transfer header (`ServiceHeader` from
`canadensis_core::transfer`; the timestamp type `I` is opaque). -/
structure ServiceHeader (I : Type) where
  timestamp : I
  priority : Nat
  service : Nat
  source : Nat
  destination : Nat
  transfer_id : Nat

/-- Message transfer header: priority, 13-bit subject-id, optional source
node-id (absence = anonymous) and transfer-id. -/
structure MessageHeader (I : Type) where
  timestamp : I
  priority : Nat
  subject : Nat
  source : Option Nat
  transfer_id : Nat

/-- The three transfer header variants of `canadensis_core::transfer::Header`. -/
inductive Header (I : Type)
  | message : MessageHeader I → Header I
  | request : ServiceHeader I → Header I
  | response : ServiceHeader I → Header I

/-- `Header::priority`. -/
def Header.priority : Header I → Nat
  | .message m => m.priority
  | .request s => s.priority
  | .response s => s.priority

/-- `Header::source`: the source node-id, if any (service transfers always
have one). -/
def Header.source? : Header I → Option Nat
  | .message m => m.source
  | .request s => some s.source
  | .response s => some s.source

/-- `Header::transfer_id`. -/
def Header.transfer_id : Header I → Nat
  | .message m => m.transfer_id
  | .request s => s.transfer_id
  | .response s => s.transfer_id

/-- `Header::timestamp`. -/
def Header.timestamp : Header I → I
  | .message m => m.timestamp
  | .request s => s.timestamp
  | .response s => s.timestamp

/-- A transfer: a header plus a payload byte sequence. -/
structure Transfer (I : Type) where
  header : Header I
  payload : List Nat

/-- `encode_common_service_fields` from `tx.rs`: the service-id shifted to
bits 22..14, the destination node-id shifted to bits 13..7, and the
service flag in bit 25, combined with bitwise or. -/
def encode_common_service_fields (h : ServiceHeader I) : Nat :=
  ((h.service <<< 14) ||| (h.destination <<< 7)) ||| (1 <<< 25)

/-- `make_can_id` from `tx.rs`: accumulate the identifier bits with
bitwise or, in the order of the source: the priority shifted to bit 26,
then the source node-id (or the pseudo-id for an anonymous message); then
per variant: for a message the subject-id shifted to bit 8, bits 21 and
22, and bit 24 if anonymous; for a request the common service fields and
bit 24; for a response the common service fields only. -/
def make_can_id (header : Header I) (payload : List Nat) : Nat :=
  let base :=
    ((0 : Nat) ||| (header.priority <<< 26)) |||
      (match header.source? with
        | some s => s
        | none => make_pseudo_id payload)
  match header with
  | .message m =>
    let b := base ||| (m.subject <<< 8)
    let b := b ||| ((1 <<< 21) ||| (1 <<< 22))
    if m.source.isNone then b ||| (1 <<< 24) else b
  | .request s => (base ||| encode_common_service_fields s) ||| (1 <<< 24)
  | .response s => base ||| encode_common_service_fields s

/-- Modelled from the spec: `CanId::try_from` (`canadensis_can`'s `CanId`
is not part of the provided source).  "CanId: a 29-bit unsigned integer.
Invariant: top 3 bits of the underlying 32-bit carrier are zero" — the
conversion succeeds exactly when the value fits in 29 bits. -/
def can_id_try_from (bits : Nat) : Option Nat :=
  if bits < 2 ^ 29 then some bits else none

/-- Widths of the header fields as declared by the data model: priority
fits in 3 bits (values 0..7), subject-id in 13 bits, service-id in 9
bits, node-ids in 7 bits. -/
def HeaderWidths : Header I → Prop
  | .message m =>
    m.priority ≤ 7 ∧ m.subject < 2 ^ 13 ∧
      (match m.source with
        | some s => s < 2 ^ 7
        | none => True)
  | .request s => s.priority ≤ 7 ∧ s.service < 2 ^ 9 ∧ s.source < 2 ^ 7 ∧ s.destination < 2 ^ 7
  | .response s => s.priority ≤ 7 ∧ s.service < 2 ^ 9 ∧ s.source < 2 ^ 7 ∧ s.destination < 2 ^ 7

instance (h : Header I) : Decidable (HeaderWidths h) := by
  rcases h with m | s | s
  · rcases m with ⟨ts, pri, subj, src, tid⟩
    rcases src with _ | s <;> (unfold HeaderWidths; infer_instance)
  · unfold HeaderWidths; infer_instance
  · unfold HeaderWidths; infer_instance

/-- Spec section 4.1 bit layout of the 29-bit CAN identifier, written as a
sum of disjoint shifted fields, directly from the spec's table: priority
in bits 28..26 and the source node-id (or anonymous pseudo-id) in bits
6..0 for all variants; for a message bit 25 = 0, bit 24 = anonymous,
bits 23..21 = 011 and the subject-id in bits 20..8; for a service
transfer bit 25 = 1, bit 24 = request-not-response, the service-id in
bits 22..14 and the destination node-id in bits 13..7; fields not used by
a variant are zero. -/
def can_id_layout (header : Header I) (payload : List Nat) : Nat :=
  match header with
  | .message m =>
    m.priority * 2 ^ 26 +
      (match m.source with
        | some _ => 0
        | none => 2 ^ 24) + 2 ^ 22 + 2 ^ 21 +
      m.subject * 2 ^ 8 +
      (match m.source with
        | some s => s
        | none => make_pseudo_id payload)
  | .request s =>
    s.priority * 2 ^ 26 + 2 ^ 25 + 2 ^ 24 + s.service * 2 ^ 14 + s.destination * 2 ^ 7 + s.source
  | .response s =>
    s.priority * 2 ^ 26 + 2 ^ 25 + s.service * 2 ^ 14 + s.destination * 2 ^ 7 + s.source

/-- An outgoing CAN frame: timestamp, CAN identifier and data bytes. -/
structure Frame (I : Type) where
  timestamp : I
  id : Nat
  data : List Nat
deriving DecidableEq

/-- The transmitter, instantiated with a bounded list queue as the frame
sink (the concrete queue honours the frame-sink contract: `try_reserve n`
succeeds exactly when `n` more frames fit, and `push_frame` appends while
there is room). -/
structure Transmitter (I : Type) where
  capacity : Nat
  frame_queue : List (Frame I)
  mtu : Nat
  transfer_count : Nat
  error_count : Nat

/-- The enqueue loop of `push_inner` over the bounded list queue: append
each frame while there is room; stop and report failure at the first
frame that does not fit (frames already appended stay in the queue, as in
the source, where each `push_frame` call mutates the queue before the
`?` operator can propagate an error). -/
def enqueue_frames (cap : Nat) (q : List (Frame I)) (ts : I) (id : Nat) :
    List (List Nat) → List (Frame I) × Bool
  | [] => (q, true)
  | d :: rest =>
    if q.length < cap then
      enqueue_frames cap (q ++ [{ timestamp := ts, id := id, data := d }]) ts id rest
    else (q, false)

/-- `Transmitter::push`: compute the frame stats, reserve capacity for the
frames (`try_reserve`), and on success stream the transfer through the
segmenter, enqueueing each frame; count the transfer on success and the
error on failure (`u64` counters wrap modulo 2^64). -/
def push (tx : Transmitter I) (t : Transfer I) : Transmitter I × Bool :=
  let stats := calculate_frame_stats t.payload.length tx.mtu
  if tx.frame_queue.length + stats.frames ≤ tx.capacity then
    let r :=
      enqueue_frames tx.capacity tx.frame_queue t.header.timestamp
        (make_can_id t.header t.payload)
        (transfer_frames t.payload tx.mtu t.header.transfer_id)
    if r.2 then
      ({ tx with
          frame_queue := r.1,
          transfer_count := (tx.transfer_count + 1) % 2 ^ 64 }, true)
    else
      ({ tx with
          frame_queue := r.1,
          error_count := (tx.error_count + 1) % 2 ^ 64 }, false)
  else
    ({ tx with error_count := (tx.error_count + 1) % 2 ^ 64 }, false)

/-- Concrete transmitter used by the seed scenarios: classic CAN MTU 8,
queue capacity 5, empty queue, zeroed counters. -/
def tx_ex : Transmitter Unit :=
  { capacity := 5, frame_queue := [], mtu := 8, transfer_count := 0, error_count := 0 }

/-- Concrete transmitter with queue capacity 1 (scenario S5). -/
def tx_small_ex : Transmitter Unit :=
  { capacity := 1, frame_queue := [], mtu := 8, transfer_count := 0, error_count := 0 }

/-- Concrete two-frame message transfer (ten payload bytes at MTU 8). -/
def msg_ex : Transfer Unit :=
  { header := Header.message
      { timestamp := (), priority := 4, subject := 1234, source := some 42, transfer_id := 7 },
    payload := List.range 10 }

/-- Concrete single-frame message transfer (scenario S1). -/
def msg_single_ex : Transfer Unit :=
  { header := Header.message
      { timestamp := (), priority := 4, subject := 1234, source := some 42, transfer_id := 7 },
    payload := [0xDE, 0xAD, 0xBE, 0xEF] }

end CanTx

namespace CanTx

/-- Feeding a concatenation of two byte streams through the segmenter is
feeding the first and then the second from the resulting state. -/
theorem feed_append (b : Breakdown) (s1 s2 : List Nat) :
    feed b (s1 ++ s2) =
      ((feed b s1).1 ++ (feed (feed b s1).2 s2).1, (feed (feed b s1).2 s2).2) := by
  induction s1 generalizing b with
  | nil => simp [feed]
  | cons x s1 ih =>
    rcases h : b.add x with ⟨fd, b2⟩
    cases fd with
    | none => simp [feed, h, ih]
    | some d => simp [feed, h, ih]

/-- Bytes already sitting in the segmenter buffer behave like bytes
prepended to the remaining stream, as long as the buffer stays within its
`mtu - 1` data capacity. -/
theorem feed_fill (mtu tid : Nat) (C : List Nat) :
    ∀ (B : List Nat) (k : Nat) (f : Bool) (bytes : List Nat),
      B.length + C.length ≤ mtu - 1 →
      feed ⟨mtu, tid, B ++ C, k, f⟩ bytes = feed ⟨mtu, tid, B, k, f⟩ (C ++ bytes) := by
  induction C with
  | nil => intro B k f bytes _; simp
  | cons y C ih =>
    intro B k f bytes h
    have hlen : B.length + (y :: C).length ≤ mtu - 1 := h
    have hlt : B.length ≠ mtu - 1 := by simp at hlen; omega
    have hadd : (Breakdown.mk mtu tid B k f).add y = (none, ⟨mtu, tid, B ++ [y], k, f⟩) := by
      simp [Breakdown.add, hlt]
    have step : feed ⟨mtu, tid, B, k, f⟩ ((y :: C) ++ bytes) =
        feed ⟨mtu, tid, B ++ [y], k, f⟩ (C ++ bytes) := by
      simp [feed, hadd]
    rw [step, ← ih (B ++ [y]) k f bytes (by simp at hlen ⊢; omega)]
    simp

/-- A stream that fits in the data capacity of one frame seals nothing:
it is left in the buffer. -/
theorem feed_small (mtu tid : Nat) (bytes : List Nat) (k : Nat) (f : Bool)
    (h : bytes.length ≤ mtu - 1) :
    feed ⟨mtu, tid, [], k, f⟩ bytes = ([], ⟨mtu, tid, bytes, k, f⟩) := by
  have h2 := feed_fill mtu tid bytes [] k f [] (by simpa using h)
  simp [feed] at h2
  exact h2.symm

/-- A stream longer than one frame's data capacity seals exactly one
frame out of its first `mtu - 1` bytes and continues on the rest from an
empty buffer. -/
theorem feed_step (mtu tid : Nat) (bytes : List Nat) (k : Nat) (f : Bool)
    (hu : 1 ≤ mtu - 1) (h : mtu - 1 < bytes.length) :
    feed ⟨mtu, tid, [], k, f⟩ bytes =
      ((bytes.take (mtu - 1) ++ [tail_byte f false (decide (k % 2 = 0)) tid]) ::
          (feed ⟨mtu, tid, [], k + 1, false⟩ (bytes.drop (mtu - 1))).1,
        (feed ⟨mtu, tid, [], k + 1, false⟩ (bytes.drop (mtu - 1))).2) := by
  obtain ⟨y, r', hr⟩ : ∃ y r', bytes.drop (mtu - 1) = y :: r' := by
    cases hd : bytes.drop (mtu - 1) with
    | nil =>
      exfalso
      have := congrArg List.length hd
      simp at this
      omega
    | cons y r' => exact ⟨y, r', rfl⟩
  have htl : (bytes.take (mtu - 1)).length = mtu - 1 := by
    simp
    omega
  have h1 : feed ⟨mtu, tid, [], k, f⟩ (bytes.take (mtu - 1)) =
      ([], ⟨mtu, tid, bytes.take (mtu - 1), k, f⟩) :=
    feed_small mtu tid _ k f (le_of_eq htl)
  have hadd : (Breakdown.mk mtu tid (bytes.take (mtu - 1)) k f).add y =
      (some (bytes.take (mtu - 1) ++ [tail_byte f false (decide (k % 2 = 0)) tid]),
        ⟨mtu, tid, [y], k + 1, false⟩) := by
    simp [Breakdown.add, htl, Breakdown.seal, tail_byte]
  have h2 : feed ⟨mtu, tid, [y], k + 1, false⟩ r' =
      feed ⟨mtu, tid, [], k + 1, false⟩ (y :: r') := by
    have := feed_fill mtu tid [y] [] (k + 1) false r' (by simpa using hu)
    simpa using this
  calc feed ⟨mtu, tid, [], k, f⟩ bytes
      = feed ⟨mtu, tid, [], k, f⟩ (bytes.take (mtu - 1) ++ bytes.drop (mtu - 1)) := by
        rw [List.take_append_drop]
    _ = ((bytes.take (mtu - 1) ++ [tail_byte f false (decide (k % 2 = 0)) tid]) ::
          (feed ⟨mtu, tid, [], k + 1, false⟩ (bytes.drop (mtu - 1))).1,
        (feed ⟨mtu, tid, [], k + 1, false⟩ (bytes.drop (mtu - 1))).2) := by
        rw [feed_append, h1, hr]
        simp [feed, hadd, h2]

/-- Full characterization of feeding a byte stream into a fresh buffer:
with `u = mtu - 1` and `N = (L - 1) / u` sealed frames for a stream of
length `L`, the sealed frames are the consecutive `u`-byte chunks of the
stream with non-final tail bytes (start only on the very first frame,
toggle alternating from the initial frame index), the buffer retains the
final partial chunk, and the data bytes of the sealed frames followed by
the retained buffer reproduce the stream. -/
theorem feed_spec (mtu tid : Nat) (hu : 1 ≤ mtu - 1) :
    ∀ (n : Nat) (bytes : List Nat), bytes.length ≤ n → ∀ (k : Nat) (f : Bool),
      (feed ⟨mtu, tid, [], k, f⟩ bytes).1.length = (bytes.length - 1) / (mtu - 1) ∧
      (feed ⟨mtu, tid, [], k, f⟩ bytes).2 =
        ⟨mtu, tid, bytes.drop ((mtu - 1) * ((bytes.length - 1) / (mtu - 1))),
          k + (bytes.length - 1) / (mtu - 1),
          f && decide ((bytes.length - 1) / (mtu - 1) = 0)⟩ ∧
      ((feed ⟨mtu, tid, [], k, f⟩ bytes).1.map List.dropLast).flatten ++
          (feed ⟨mtu, tid, [], k, f⟩ bytes).2.buffer = bytes ∧
      ∀ i, i < (bytes.length - 1) / (mtu - 1) →
        (feed ⟨mtu, tid, [], k, f⟩ bytes).1[i]? =
          some ((bytes.drop ((mtu - 1) * i)).take (mtu - 1) ++
            [tail_byte (f && decide (i = 0)) false (decide ((k + i) % 2 = 0)) tid]) := by
  intro n
  induction n with
  | zero =>
    intro bytes hlen k f
    have hb : bytes = [] := List.length_eq_zero.mp (Nat.le_zero.mp hlen)
    subst hb
    simp [feed]
  | succ n ih =>
    intro bytes hlen k f
    by_cases hsmall : bytes.length ≤ mtu - 1
    · have hN : (bytes.length - 1) / (mtu - 1) = 0 := Nat.div_eq_of_lt (by omega)
      rw [feed_small mtu tid bytes k f hsmall]
      simp [hN]
    · push_neg at hsmall
      have hdl : (bytes.drop (mtu - 1)).length ≤ n := by simp; omega
      obtain ⟨ih1, ih2, ih3, ih4⟩ := ih (bytes.drop (mtu - 1)) hdl (k + 1) false
      have hNsucc : (bytes.length - 1) / (mtu - 1) =
          ((bytes.drop (mtu - 1)).length - 1) / (mtu - 1) + 1 := by
        simp only [List.length_drop]
        have hsplit : bytes.length - 1 = (bytes.length - (mtu - 1) - 1) + (mtu - 1) := by omega
        rw [hsplit, Nat.add_div_right _ (by omega)]
      rw [feed_step mtu tid bytes k f hu hsmall]
      refine ⟨?_, ?_, ?_, ?_⟩
      · simp [ih1, hNsucc]
      · rw [ih2, hNsucc]
        simp only [Breakdown.mk.injEq, true_and]
        refine ⟨?_, ?_, ?_⟩
        · rw [List.drop_drop, Nat.mul_succ, Nat.add_comm]
        · omega
        · simp
      · have : List.dropLast
            (bytes.take (mtu - 1) ++ [tail_byte f false (decide (k % 2 = 0)) tid]) =
            bytes.take (mtu - 1) := List.dropLast_concat
        simp only [List.map_cons, List.flatten_cons, this]
        rw [List.append_assoc, ih3, List.take_append_drop]
      · intro i hi
        cases i with
        | zero => simp
        | succ j =>
          have hj : j < ((bytes.drop (mtu - 1)).length - 1) / (mtu - 1) := by omega
          have hI := ih4 j hj
          simp only [List.getElem?_cons_succ]
          rw [hI, List.drop_drop]
          have e1 : (mtu - 1) + (mtu - 1) * j = (mtu - 1) * (j + 1) := by
            rw [Nat.mul_succ, Nat.add_comm]
          have e2 : k + 1 + j = k + (j + 1) := by omega
          rw [e1, e2]
          simp

/-- A transfer whose payload fits in one frame produces exactly the
payload followed by a `start = end = toggle = 1` tail byte, with no
padding and no CRC. -/
theorem transfer_frames_single (payload : List Nat) (mtu tid : Nat)
    (hP : payload.length ≤ mtu - 1) :
    transfer_frames payload mtu tid = [payload ++ [tail_byte true true true tid]] := by
  have hstats : calculate_frame_stats payload.length mtu = ⟨1, 0⟩ := by
    simp [calculate_frame_stats, hP]
  have hfeed : feed (Breakdown.new mtu tid) payload = ([], ⟨mtu, tid, payload, 0, true⟩) := by
    simpa [Breakdown.new] using feed_small mtu tid payload 0 true hP
  simp [transfer_frames, hstats, hfeed, Breakdown.finish, Breakdown.seal]

/-- Structure of a multi-frame transfer with `u = mtu - 1`, padding `pad`
and `m` frames (where `payload + pad + 2` CRC bytes fill `m` frames
exactly): the produced frame list has length `m`; the concatenation of
the frames' data bytes (tails removed) is the payload, the padding and
the two CRC bytes; every non-final frame is a full `u`-byte chunk of that
stream with a non-final tail byte (start only on frame 0, toggle
alternating from 1); and the final frame is the last `u`-byte chunk with
an `end = 1` tail byte. -/
theorem transfer_frames_multi (payload : List Nat) (mtu tid pad m : Nat)
    (hu : 3 ≤ mtu - 1)
    (hP : mtu - 1 < payload.length)
    (hpad : (calculate_frame_stats payload.length mtu).last_frame_padding = pad)
    (hm2 : 2 ≤ m)
    (htot : payload.length + pad + 2 = m * (mtu - 1)) :
    (transfer_frames payload mtu tid).length = m ∧
    ((transfer_frames payload mtu tid).map List.dropLast).flatten =
      total_stream payload pad ∧
    (∀ i, i < m - 1 → (transfer_frames payload mtu tid)[i]? =
      some (((total_stream payload pad).drop ((mtu - 1) * i)).take (mtu - 1) ++
        [tail_byte (decide (i = 0)) false (decide (i % 2 = 0)) tid])) ∧
    (transfer_frames payload mtu tid)[m - 1]? =
      some ((total_stream payload pad).drop ((mtu - 1) * (m - 1)) ++
        [tail_byte false true (decide ((m - 1) % 2 = 0)) tid]) ∧
    ((total_stream payload pad).drop ((mtu - 1) * (m - 1))).length = mtu - 1 := by
  have hu1 : 1 ≤ mtu - 1 := by omega
  obtain ⟨m', rfl⟩ : ∃ m', m = m' + 2 := ⟨m - 2, by omega⟩
  have hmul : (m' + 2) * (mtu - 1) = m' * (mtu - 1) + 2 * (mtu - 1) := by ring
  rw [hmul] at htot
  have hq1 : (mtu - 1) * (m' + 1) = m' * (mtu - 1) + (mtu - 1) := by ring
  have hq2 : (mtu - 1) * m' = m' * (mtu - 1) := by ring
  have hslen : (payload ++ List.replicate pad 0).length = payload.length + pad := by simp
  obtain ⟨c1, c2, c3, c4⟩ :=
    feed_spec mtu tid hu1 (payload ++ List.replicate pad 0).length
      (payload ++ List.replicate pad 0) le_rfl 0 true
  have hN1 : ((payload ++ List.replicate pad 0).length - 1) / (mtu - 1) = m' + 1 := by
    rw [hslen]
    have hrw : payload.length + pad - 1 = (mtu - 1) * (m' + 1) + (mtu - 1 - 3) := by
      rw [hq1]; omega
    rw [hrw, Nat.mul_add_div (by omega), Nat.div_eq_of_lt (by omega)]
  have hc1 : (feed ⟨mtu, tid, [], 0, true⟩ (payload ++ List.replicate pad 0)).1.length =
      m' + 1 := by rw [c1, hN1]
  have hbuf1 : (feed ⟨mtu, tid, [], 0, true⟩ (payload ++ List.replicate pad 0)).2 =
      ⟨mtu, tid, (payload ++ List.replicate pad 0).drop ((mtu - 1) * (m' + 1)),
        m' + 1, false⟩ := by
    rw [c2, hN1]
    simp
  have hblen : ((payload ++ List.replicate pad 0).drop ((mtu - 1) * (m' + 1))).length =
      mtu - 1 - 2 := by
    simp only [List.length_drop, hslen, hq1]
    omega
  have hcrcfeed : feed
      ⟨mtu, tid, (payload ++ List.replicate pad 0).drop ((mtu - 1) * (m' + 1)), m' + 1, false⟩
      [crc16 (payload ++ List.replicate pad 0) / 256 % 256,
        crc16 (payload ++ List.replicate pad 0) % 256] =
      ([], ⟨mtu, tid,
        (payload ++ List.replicate pad 0).drop ((mtu - 1) * (m' + 1)) ++
          [crc16 (payload ++ List.replicate pad 0) / 256 % 256,
            crc16 (payload ++ List.replicate pad 0) % 256], m' + 1, false⟩) := by
    have hfill := feed_fill mtu tid
      [crc16 (payload ++ List.replicate pad 0) / 256 % 256,
        crc16 (payload ++ List.replicate pad 0) % 256]
      ((payload ++ List.replicate pad 0).drop ((mtu - 1) * (m' + 1))) (m' + 1) false []
      (by rw [hblen]; simp; omega)
    simp only [feed, List.append_nil] at hfill
    exact hfill.symm
  have htf : transfer_frames payload mtu tid =
      (feed ⟨mtu, tid, [], 0, true⟩ (payload ++ List.replicate pad 0)).1 ++
        [(payload ++ List.replicate pad 0).drop ((mtu - 1) * (m' + 1)) ++
          [crc16 (payload ++ List.replicate pad 0) / 256 % 256,
            crc16 (payload ++ List.replicate pad 0) % 256] ++
          [tail_byte false true (decide ((m' + 1) % 2 = 0)) tid]] := by
    simp only [transfer_frames, hpad, Breakdown.new]
    rw [hbuf1, hcrcfeed]
    simp [hc1, Breakdown.finish, Breakdown.seal]
  have hdropt : (total_stream payload pad).drop ((mtu - 1) * (m' + 1)) =
      (payload ++ List.replicate pad 0).drop ((mtu - 1) * (m' + 1)) ++
        [crc16 (payload ++ List.replicate pad 0) / 256 % 256,
          crc16 (payload ++ List.replicate pad 0) % 256] := by
    have hle : (mtu - 1) * (m' + 1) ≤ (payload ++ List.replicate pad 0).length := by
      rw [hslen, hq1]; omega
    rw [total_stream, List.drop_append_eq_append_drop, Nat.sub_eq_zero_of_le hle]
    simp
  have htlen : (total_stream payload pad).length = payload.length + pad + 2 := by
    simp [total_stream]
    omega
  have hbufeq : (feed ⟨mtu, tid, [], 0, true⟩ (payload ++ List.replicate pad 0)).2.buffer =
      (payload ++ List.replicate pad 0).drop ((mtu - 1) * (m' + 1)) := by
    rw [hbuf1]
  refine ⟨?_, ?_, ?_, ?_, ?_⟩
  · rw [htf]
    simp [hc1]
  · rw [htf]
    rw [hbufeq] at c3
    simp only [List.map_append, List.map_cons, List.map_nil, List.flatten_append,
      List.flatten_cons, List.flatten_nil, List.dropLast_concat, List.append_nil]
    rw [total_stream, ← List.append_assoc, c3]
  · intro i hi
    have hi' : i < m' + 1 := by omega
    have hlt : i < (feed ⟨mtu, tid, [], 0, true⟩ (payload ++ List.replicate pad 0)).1.length := by
      rw [hc1]; omega
    rw [htf, List.getElem?_append_left hlt]
    rw [c4 i (by rw [hN1]; omega)]
    have hle2 : (mtu - 1) * i + (mtu - 1) ≤ (payload ++ List.replicate pad 0).length := by
      have h3 : (mtu - 1) * i ≤ (mtu - 1) * m' := Nat.mul_le_mul_left (mtu - 1) (by omega)
      rw [hslen]
      rw [hq2] at h3
      omega
    have hchunk : ((total_stream payload pad).drop ((mtu - 1) * i)).take (mtu - 1) =
        ((payload ++ List.replicate pad 0).drop ((mtu - 1) * i)).take (mtu - 1) := by
      have hd0 : (mtu - 1) * i - (payload ++ List.replicate pad 0).length = 0 := by omega
      have ht0 : (mtu - 1) -
          ((payload ++ List.replicate pad 0).drop ((mtu - 1) * i)).length = 0 := by
        simp only [List.length_drop]
        omega
      rw [total_stream, List.drop_append_eq_append_drop, hd0, List.drop_zero,
        List.take_append_eq_append_take, ht0, List.take_zero, List.append_nil]
    rw [hchunk]
    simp
  · have hge : (feed ⟨mtu, tid, [], 0, true⟩ (payload ++ List.replicate pad 0)).1.length ≤
        m' + 2 - 1 := by rw [hc1]; omega
    rw [htf, List.getElem?_append_right hge, hc1]
    have hidx : m' + 2 - 1 - (m' + 1) = 0 := by omega
    have hm1 : m' + 2 - 1 = m' + 1 := by omega
    rw [hidx, hm1, hdropt]
    simp
  · rw [List.length_drop, htlen]
    have hm1 : m' + 2 - 1 = m' + 1 := by omega
    rw [hm1, hq1]
    omega

/-- Arithmetic facts about `calculate_frame_stats` in the multi-frame
case, over every supported MTU: the padding formula, at least two
frames, the stream of payload, padding and CRC exactly filling the
frames, and the frame count as a ceiling division. -/
theorem frame_stats_spec (P mtu : Nat) (h : SupportedMtu mtu) (h2 : mtu - 1 < P) :
    (calculate_frame_stats P mtu).last_frame_padding =
      ((mtu - 1) - (P + 2) % (mtu - 1)) % (mtu - 1) ∧
    2 ≤ (calculate_frame_stats P mtu).frames ∧
    P + (calculate_frame_stats P mtu).last_frame_padding + 2 =
      (calculate_frame_stats P mtu).frames * (mtu - 1) ∧
    (calculate_frame_stats P mtu).frames = (P + 2 + (mtu - 1) - 1) / (mtu - 1) := by
  have hn : ¬ (P ≤ mtu - 1) := by omega
  simp only [calculate_frame_stats, if_neg hn]
  rcases h with h | h | h | h | h | h | h | h <;> subst h <;>
    exact ⟨trivial, by omega, by omega, by omega⟩

/-- Every supported MTU admits at least four bytes of frame data
capacity. -/
theorem supported_mtu_ge (mtu : Nat) (h : SupportedMtu mtu) : 3 ≤ mtu - 1 := by
  rcases h with h | h | h | h | h | h | h | h <;> omega

/-- The number of frame data sequences a push produces equals the frame
count computed by `calculate_frame_stats` (the count passed to
`try_reserve`). -/
theorem transfer_frames_count (payload : List Nat) (mtu tid : Nat) (h : SupportedMtu mtu) :
    (transfer_frames payload mtu tid).length =
      (calculate_frame_stats payload.length mtu).frames := by
  by_cases hP : payload.length ≤ mtu - 1
  · rw [transfer_frames_single payload mtu tid hP]
    simp [calculate_frame_stats, hP]
  · push_neg at hP
    obtain ⟨hpad, hm2, htot, _⟩ := frame_stats_spec payload.length mtu h hP
    obtain ⟨hlen, _, _, _, _⟩ :=
      transfer_frames_multi payload mtu tid
        (calculate_frame_stats payload.length mtu).last_frame_padding
        (calculate_frame_stats payload.length mtu).frames
        (supported_mtu_ge mtu h) hP rfl hm2 htot
    exact hlen

/-- Bit 7 of a packed tail byte is the start flag. -/
theorem tail_start_eval (s e t : Bool) (tid : Nat) :
    tail_start (tail_byte s e t tid) = if s then 1 else 0 := by
  have h32 : tid % 32 < 32 := Nat.mod_lt _ (by omega)
  cases s <;> cases e <;> cases t <;> simp [tail_byte, tail_start] <;> omega

/-- Bit 6 of a packed tail byte is the end flag. -/
theorem tail_end_eval (s e t : Bool) (tid : Nat) :
    tail_end (tail_byte s e t tid) = if e then 1 else 0 := by
  have h32 : tid % 32 < 32 := Nat.mod_lt _ (by omega)
  cases s <;> cases e <;> cases t <;> simp [tail_byte, tail_end] <;> omega

/-- Bit 5 of a packed tail byte is the toggle flag. -/
theorem tail_toggle_eval (s e t : Bool) (tid : Nat) :
    tail_toggle (tail_byte s e t tid) = if t then 1 else 0 := by
  have h32 : tid % 32 < 32 := Nat.mod_lt _ (by omega)
  cases s <;> cases e <;> cases t <;> simp [tail_byte, tail_toggle] <;> omega

/-- Bits 4..0 of a packed tail byte are the transfer-id modulo 32. -/
theorem tail_tid_eval (s e t : Bool) (tid : Nat) :
    tail_tid (tail_byte s e t tid) = tid % 32 := by
  have h32 : tid % 32 < 32 := Nat.mod_lt _ (by omega)
  cases s <;> cases e <;> cases t <;> simp [tail_byte, tail_tid] <;> omega

/-- The decrement loop never increases its argument. -/
theorem skip_reserved_le (n : Nat) : skip_reserved n ≤ n := by
  induction n with
  | zero => simp [skip_reserved]
  | succ n ih =>
    simp only [skip_reserved]
    split
    · omega
    · omega

/-- Closed form of the decrement loop on the 7-bit domain: reserved
values 126 and 127 land on 125, all others are unchanged. -/
theorem skip_reserved_closed (n : Nat) (hn : n < 128) :
    skip_reserved n = if 126 ≤ n then 125 else n := by
  by_cases h1 : 126 ≤ n
  · have : n = 126 ∨ n = 127 := by omega
    rcases this with rfl | rfl <;> decide
  · rw [if_neg h1]
    cases n with
    | zero => rfl
    | succ k =>
      have hr : is_diagnostic_reserved (k + 1) = false := by
        simp [is_diagnostic_reserved]
        omega
      simp [skip_reserved, hr]

/-- The pseudo node-id always fits in 7 bits. -/
theorem make_pseudo_id_lt (payload : List Nat) : make_pseudo_id payload < 128 := by
  unfold make_pseudo_id
  exact lt_of_le_of_lt (skip_reserved_le _) (Nat.mod_lt _ (by omega))

/-- The pseudo node-id is never diagnostic-reserved. -/
theorem make_pseudo_id_not_reserved (payload : List Nat) :
    is_diagnostic_reserved (make_pseudo_id payload) = false := by
  unfold make_pseudo_id
  rw [skip_reserved_closed _ (Nat.mod_lt _ (by omega))]
  split <;> simp [is_diagnostic_reserved] <;> omega

/-- Bitwise or is addition when the right operand fits strictly below
the lowest set bit of the left operand. -/
theorem lor_eq_add_of_lt {k a b : Nat} (ha : 2 ^ k ∣ a) (hb : b < 2 ^ k) :
    a ||| b = a + b := by
  obtain ⟨c, rfl⟩ := ha
  exact (Nat.mul_add_lt_is_or hb c).symm

/-- The bitwise-or packing of `make_can_id` agrees with the spec's
section 4.1 field layout whenever the header fields are within their
declared widths. -/
theorem make_can_id_eq {I : Type} (h : Header I) (payload : List Nat)
    (hw : HeaderWidths h) : make_can_id h payload = can_id_layout h payload := by
  rcases h with m | srv | srv
  · rcases m with ⟨ts, pri, subj, src, tid⟩
    rcases src with _ | s
    · simp only [HeaderWidths] at hw
      obtain ⟨hpri, hsub, -⟩ := hw
      have hps := make_pseudo_id_lt payload
      simp only [make_can_id, Header.priority, Header.source?, can_id_layout,
        Option.isNone_none, if_pos, Nat.shiftLeft_eq, Nat.zero_or, one_mul]
      rw [Nat.lor_assoc (pri * 2 ^ 26) (make_pseudo_id payload) (subj * 2 ^ 8)]
      rw [Nat.lor_comm (make_pseudo_id payload) (subj * 2 ^ 8)]
      rw [Nat.lor_assoc (pri * 2 ^ 26)
        (subj * 2 ^ 8 ||| make_pseudo_id payload) (2 ^ 21 ||| 2 ^ 22)]
      rw [Nat.lor_comm (subj * 2 ^ 8 ||| make_pseudo_id payload) (2 ^ 21 ||| 2 ^ 22)]
      rw [Nat.lor_comm (2 ^ 21) (2 ^ 22)]
      rw [Nat.lor_assoc (2 ^ 22) (2 ^ 21) (subj * 2 ^ 8 ||| make_pseudo_id payload)]
      rw [Nat.lor_assoc (pri * 2 ^ 26)
        (2 ^ 22 ||| (2 ^ 21 ||| (subj * 2 ^ 8 ||| make_pseudo_id payload))) (2 ^ 24)]
      rw [Nat.lor_comm
        (2 ^ 22 ||| (2 ^ 21 ||| (subj * 2 ^ 8 ||| make_pseudo_id payload))) (2 ^ 24)]
      rw [lor_eq_add_of_lt (dvd_mul_left (2 ^ 8) subj)
        (show make_pseudo_id payload < 2 ^ 8 by omega)]
      rw [lor_eq_add_of_lt (dvd_refl (2 ^ 21))
        (show subj * 2 ^ 8 + make_pseudo_id payload < 2 ^ 21 by omega)]
      rw [lor_eq_add_of_lt (dvd_refl (2 ^ 22))
        (show 2 ^ 21 + (subj * 2 ^ 8 + make_pseudo_id payload) < 2 ^ 22 by omega)]
      rw [lor_eq_add_of_lt (dvd_refl (2 ^ 24))
        (show 2 ^ 22 + (2 ^ 21 + (subj * 2 ^ 8 + make_pseudo_id payload)) < 2 ^ 24 by omega)]
      rw [lor_eq_add_of_lt (dvd_mul_left (2 ^ 26) pri)
        (show 2 ^ 24 + (2 ^ 22 + (2 ^ 21 + (subj * 2 ^ 8 + make_pseudo_id payload))) < 2 ^ 26 by
          omega)]
      omega
    · simp only [HeaderWidths] at hw
      obtain ⟨hpri, hsub, hs2⟩ := hw
      simp only [make_can_id, Header.priority, Header.source?, can_id_layout,
        Option.isNone_some, Nat.shiftLeft_eq, Nat.zero_or, one_mul]
      rw [if_neg (by simp)]
      rw [Nat.lor_assoc (pri * 2 ^ 26) s (subj * 2 ^ 8)]
      rw [Nat.lor_comm s (subj * 2 ^ 8)]
      rw [Nat.lor_assoc (pri * 2 ^ 26) (subj * 2 ^ 8 ||| s) (2 ^ 21 ||| 2 ^ 22)]
      rw [Nat.lor_comm (subj * 2 ^ 8 ||| s) (2 ^ 21 ||| 2 ^ 22)]
      rw [Nat.lor_comm (2 ^ 21) (2 ^ 22)]
      rw [Nat.lor_assoc (2 ^ 22) (2 ^ 21) (subj * 2 ^ 8 ||| s)]
      rw [lor_eq_add_of_lt (dvd_mul_left (2 ^ 8) subj) (show s < 2 ^ 8 by omega)]
      rw [lor_eq_add_of_lt (dvd_refl (2 ^ 21)) (show subj * 2 ^ 8 + s < 2 ^ 21 by omega)]
      rw [lor_eq_add_of_lt (dvd_refl (2 ^ 22))
        (show 2 ^ 21 + (subj * 2 ^ 8 + s) < 2 ^ 22 by omega)]
      rw [lor_eq_add_of_lt (dvd_mul_left (2 ^ 26) pri)
        (show 2 ^ 22 + (2 ^ 21 + (subj * 2 ^ 8 + s)) < 2 ^ 26 by omega)]
      omega
  · rcases srv with ⟨ts, pri, svc, src, dst, tid⟩
    simp only [HeaderWidths] at hw
    obtain ⟨hpri, hsvc, hsrc, hdst⟩ := hw
    simp only [make_can_id, Header.priority, Header.source?, can_id_layout,
      encode_common_service_fields, Nat.shiftLeft_eq, Nat.zero_or, one_mul]
    rw [Nat.lor_assoc (pri * 2 ^ 26) src ((svc * 2 ^ 14 ||| dst * 2 ^ 7) ||| 2 ^ 25)]
    rw [Nat.lor_comm src ((svc * 2 ^ 14 ||| dst * 2 ^ 7) ||| 2 ^ 25)]
    rw [Nat.lor_comm (svc * 2 ^ 14 ||| dst * 2 ^ 7) (2 ^ 25)]
    rw [Nat.lor_assoc (2 ^ 25) (svc * 2 ^ 14 ||| dst * 2 ^ 7) src]
    rw [Nat.lor_assoc (svc * 2 ^ 14) (dst * 2 ^ 7) src]
    rw [Nat.lor_assoc (pri * 2 ^ 26)
      (2 ^ 25 ||| (svc * 2 ^ 14 ||| (dst * 2 ^ 7 ||| src))) (2 ^ 24)]
    rw [Nat.lor_assoc (2 ^ 25) (svc * 2 ^ 14 ||| (dst * 2 ^ 7 ||| src)) (2 ^ 24)]
    rw [Nat.lor_comm (svc * 2 ^ 14 ||| (dst * 2 ^ 7 ||| src)) (2 ^ 24)]
    rw [lor_eq_add_of_lt (dvd_mul_left (2 ^ 7) dst) (show src < 2 ^ 7 by omega)]
    rw [lor_eq_add_of_lt (dvd_mul_left (2 ^ 14) svc)
      (show dst * 2 ^ 7 + src < 2 ^ 14 by omega)]
    rw [lor_eq_add_of_lt (dvd_refl (2 ^ 24))
      (show svc * 2 ^ 14 + (dst * 2 ^ 7 + src) < 2 ^ 24 by omega)]
    rw [lor_eq_add_of_lt (dvd_refl (2 ^ 25))
      (show 2 ^ 24 + (svc * 2 ^ 14 + (dst * 2 ^ 7 + src)) < 2 ^ 25 by omega)]
    rw [lor_eq_add_of_lt (dvd_mul_left (2 ^ 26) pri)
      (show 2 ^ 25 + (2 ^ 24 + (svc * 2 ^ 14 + (dst * 2 ^ 7 + src))) < 2 ^ 26 by omega)]
    omega
  · rcases srv with ⟨ts, pri, svc, src, dst, tid⟩
    simp only [HeaderWidths] at hw
    obtain ⟨hpri, hsvc, hsrc, hdst⟩ := hw
    simp only [make_can_id, Header.priority, Header.source?, can_id_layout,
      encode_common_service_fields, Nat.shiftLeft_eq, Nat.zero_or, one_mul]
    rw [Nat.lor_assoc (pri * 2 ^ 26) src ((svc * 2 ^ 14 ||| dst * 2 ^ 7) ||| 2 ^ 25)]
    rw [Nat.lor_comm src ((svc * 2 ^ 14 ||| dst * 2 ^ 7) ||| 2 ^ 25)]
    rw [Nat.lor_comm (svc * 2 ^ 14 ||| dst * 2 ^ 7) (2 ^ 25)]
    rw [Nat.lor_assoc (2 ^ 25) (svc * 2 ^ 14 ||| dst * 2 ^ 7) src]
    rw [Nat.lor_assoc (svc * 2 ^ 14) (dst * 2 ^ 7) src]
    rw [lor_eq_add_of_lt (dvd_mul_left (2 ^ 7) dst) (show src < 2 ^ 7 by omega)]
    rw [lor_eq_add_of_lt (dvd_mul_left (2 ^ 14) svc)
      (show dst * 2 ^ 7 + src < 2 ^ 14 by omega)]
    rw [lor_eq_add_of_lt (dvd_refl (2 ^ 25))
      (show svc * 2 ^ 14 + (dst * 2 ^ 7 + src) < 2 ^ 25 by omega)]
    rw [lor_eq_add_of_lt (dvd_mul_left (2 ^ 26) pri)
      (show 2 ^ 25 + (svc * 2 ^ 14 + (dst * 2 ^ 7 + src)) < 2 ^ 26 by omega)]
    omega

/-- Under in-width header fields the packed identifier fits in 29 bits. -/
theorem make_can_id_lt {I : Type} (h : Header I) (payload : List Nat)
    (hw : HeaderWidths h) : make_can_id h payload < 2 ^ 29 := by
  rw [make_can_id_eq h payload hw]
  rcases h with m | srv | srv
  · rcases m with ⟨ts, pri, subj, src, tid⟩
    rcases src with _ | s
    · simp only [HeaderWidths] at hw
      obtain ⟨hpri, hsub, -⟩ := hw
      have hps := make_pseudo_id_lt payload
      simp only [can_id_layout]
      omega
    · simp only [HeaderWidths] at hw
      obtain ⟨hpri, hsub, hs2⟩ := hw
      simp only [can_id_layout]
      omega
  · rcases srv with ⟨ts, pri, svc, src, dst, tid⟩
    simp only [HeaderWidths] at hw
    obtain ⟨hpri, hsvc, hsrc, hdst⟩ := hw
    simp only [can_id_layout]
    omega
  · rcases srv with ⟨ts, pri, svc, src, dst, tid⟩
    simp only [HeaderWidths] at hw
    obtain ⟨hpri, hsvc, hsrc, hdst⟩ := hw
    simp only [can_id_layout]
    omega

/-- When the queue has room for all of them, the enqueue loop appends
exactly the given frame data sequences, in order, and succeeds. -/
theorem enqueue_frames_ok {I : Type} (cap : Nat) (ts : I) (id : Nat) :
    ∀ (ds : List (List Nat)) (q : List (Frame I)), q.length + ds.length ≤ cap →
      enqueue_frames cap q ts id ds =
        (q ++ ds.map (fun d => { timestamp := ts, id := id, data := d }), true) := by
  intro ds
  induction ds with
  | nil => intro q h; simp [enqueue_frames]
  | cons d ds ih =>
    intro q h
    have hlt : q.length < cap := by simp at h; omega
    simp only [enqueue_frames, if_pos hlt]
    have hstep := ih (q ++ [Frame.mk ts id d]) (by simp at h ⊢; omega)
    rw [hstep]
    simp

/-- A push whose reservation fits appends exactly the transfer's frames,
stamped with the transfer's timestamp and CAN identifier, and counts the
transfer. -/
theorem push_ok {I : Type} (tx : Transmitter I) (t : Transfer I) (h : SupportedMtu tx.mtu)
    (hres : tx.frame_queue.length +
      (calculate_frame_stats t.payload.length tx.mtu).frames ≤ tx.capacity) :
    push tx t =
      ({ tx with
          frame_queue := tx.frame_queue ++
            (transfer_frames t.payload tx.mtu t.header.transfer_id).map
              (fun d => { timestamp := t.header.timestamp,
                          id := make_can_id t.header t.payload, data := d }),
          transfer_count := (tx.transfer_count + 1) % 2 ^ 64 }, true) := by
  have hcount := transfer_frames_count t.payload tx.mtu t.header.transfer_id h
  have hlen : tx.frame_queue.length +
      (transfer_frames t.payload tx.mtu t.header.transfer_id).length ≤ tx.capacity := by
    rw [hcount]; exact hres
  simp only [push, if_pos hres]
  rw [enqueue_frames_ok tx.capacity t.header.timestamp (make_can_id t.header t.payload)
    (transfer_frames t.payload tx.mtu t.header.transfer_id) tx.frame_queue hlen]
  simp

/-- A push whose reservation does not fit fails immediately, counting the
error and leaving the queue untouched. -/
theorem push_fail {I : Type} (tx : Transmitter I) (t : Transfer I)
    (hres : ¬ (tx.frame_queue.length +
      (calculate_frame_stats t.payload.length tx.mtu).frames ≤ tx.capacity)) :
    push tx t = ({ tx with error_count := (tx.error_count + 1) % 2 ^ 64 }, false) := by
  simp only [push, if_neg hres]

/-- Every produced frame is some data chunk plus one tail byte whose
start flag marks exactly frame 0, whose end flag marks exactly the final
frame, and whose toggle alternates starting at 1. -/
theorem transfer_frames_tails (payload : List Nat) (mtu tid : Nat) (hmtu : SupportedMtu mtu) :
    ∀ i d, (transfer_frames payload mtu tid)[i]? = some d →
      ∃ c, d = c ++ [tail_byte (decide (i = 0))
        (decide (i + 1 = (transfer_frames payload mtu tid).length))
        (decide (i % 2 = 0)) tid] := by
  intro i d hd
  by_cases hP : payload.length ≤ mtu - 1
  · rw [transfer_frames_single payload mtu tid hP] at hd ⊢
    cases i with
    | zero =>
      simp at hd
      refine ⟨payload, ?_⟩
      rw [← hd]
      simp
    | succ j => simp at hd
  · push_neg at hP
    obtain ⟨hpad, hm2, htot, hceil⟩ := frame_stats_spec payload.length mtu hmtu hP
    obtain ⟨hlen, _, hmid, hlast, _⟩ :=
      transfer_frames_multi payload mtu tid
        (calculate_frame_stats payload.length mtu).last_frame_padding
        (calculate_frame_stats payload.length mtu).frames
        (supported_mtu_ge mtu hmtu) hP rfl hm2 htot
    by_cases hi : i < (calculate_frame_stats payload.length mtu).frames - 1
    · rw [hmid i hi] at hd
      injection hd with hd
      refine ⟨((total_stream payload
          (calculate_frame_stats payload.length mtu).last_frame_padding).drop
            ((mtu - 1) * i)).take (mtu - 1), ?_⟩
      rw [← hd, hlen]
      have hne : ¬ (i + 1 = (calculate_frame_stats payload.length mtu).frames) := by omega
      simp [hne]
    · rcases (by omega :
          i = (calculate_frame_stats payload.length mtu).frames - 1 ∨
            (calculate_frame_stats payload.length mtu).frames ≤ i) with hieq | hge
      · subst hieq
        rw [hlast] at hd
        injection hd with hd
        refine ⟨(total_stream payload
            (calculate_frame_stats payload.length mtu).last_frame_padding).drop
              ((mtu - 1) * ((calculate_frame_stats payload.length mtu).frames - 1)), ?_⟩
        rw [← hd, hlen]
        have h1 : (calculate_frame_stats payload.length mtu).frames - 1 + 1 =
            (calculate_frame_stats payload.length mtu).frames := by omega
        have h0 : ¬ ((calculate_frame_stats payload.length mtu).frames - 1 = 0) := by omega
        simp [h1, h0]
      · rw [List.getElem?_eq_none (by rw [hlen]; omega)] at hd
        exact absurd hd (by simp)

/-- Claim C1: for every multi-frame transfer (payload length greater than
`mtu - 1`) over a supported MTU, after a successful push the data bytes of
the enqueued frames (tail bytes removed), concatenated in enqueue order,
are the payload, then the zero padding, then the two CRC-16/CCITT-FALSE
bytes of payload-plus-padding stored high byte first; taking the first
`P` bytes back reproduces the payload byte-for-byte. -/
theorem claim_C1_payload_recoverability {I : Type} (tx : Transmitter I) (t : Transfer I)
    (hmtu : SupportedMtu tx.mtu)
    (hP : tx.mtu - 1 < t.payload.length)
    (hok : (push tx t).2 = true) :
    (((push tx t).1.frame_queue.drop tx.frame_queue.length).map
        (fun fr => fr.data.dropLast)).flatten =
      t.payload ++
        List.replicate (calculate_frame_stats t.payload.length tx.mtu).last_frame_padding 0 ++
        [crc16 (t.payload ++ List.replicate
            (calculate_frame_stats t.payload.length tx.mtu).last_frame_padding 0) / 256 % 256,
          crc16 (t.payload ++ List.replicate
            (calculate_frame_stats t.payload.length tx.mtu).last_frame_padding 0) % 256] ∧
    (((push tx t).1.frame_queue.drop tx.frame_queue.length).map
        (fun fr => fr.data.dropLast)).flatten.take t.payload.length = t.payload := by
  by_cases hres : tx.frame_queue.length +
      (calculate_frame_stats t.payload.length tx.mtu).frames ≤ tx.capacity
  case neg => rw [push_fail tx t hres] at hok; simp at hok
  obtain ⟨hpad, hm2, htot, _⟩ := frame_stats_spec t.payload.length tx.mtu hmtu hP
  obtain ⟨_, hflat, _, _, _⟩ :=
    transfer_frames_multi t.payload tx.mtu t.header.transfer_id
      (calculate_frame_stats t.payload.length tx.mtu).last_frame_padding
      (calculate_frame_stats t.payload.length tx.mtu).frames
      (supported_mtu_ge tx.mtu hmtu) hP rfl hm2 htot
  have hmain : (((push tx t).1.frame_queue.drop tx.frame_queue.length).map
      (fun fr => fr.data.dropLast)).flatten =
      total_stream t.payload (calculate_frame_stats t.payload.length tx.mtu).last_frame_padding := by
    rw [push_ok tx t hmtu hres]
    simp only [List.drop_left, List.map_map]
    rw [← hflat]
    congr 1
  refine ⟨by rw [hmain]; rfl, ?_⟩
  rw [hmain, total_stream, List.append_assoc, List.take_left]

/-- Claim C2: for a push with payload length `P` over a supported MTU `M`
with `U = M - 1`: one frame, no padding in the single-frame case; padding
`(−(P+2)) mod U` and `⌈(P+2)/U⌉` frames in the multi-frame case; and the
frame count passed to `try_reserve` equals the number of frames the push
enqueues. -/
theorem claim_C2_frame_count (payload : List Nat) (mtu tid : Nat) (h : SupportedMtu mtu) :
    ((payload.length ≤ mtu - 1 →
        calculate_frame_stats payload.length mtu = { frames := 1, last_frame_padding := 0 }) ∧
      (mtu - 1 < payload.length →
        (calculate_frame_stats payload.length mtu).frames =
          (payload.length + 2 + (mtu - 1) - 1) / (mtu - 1) ∧
        (calculate_frame_stats payload.length mtu).last_frame_padding =
          ((mtu - 1) - (payload.length + 2) % (mtu - 1)) % (mtu - 1))) ∧
    (transfer_frames payload mtu tid).length = (calculate_frame_stats payload.length mtu).frames ∧
    ∀ (tx : Transmitter PUnit) (t : Transfer PUnit), tx.mtu = mtu → (push tx t).2 = true →
      (push tx t).1.frame_queue.length =
        tx.frame_queue.length + (calculate_frame_stats t.payload.length mtu).frames := by
  refine ⟨⟨fun h1 => by simp [calculate_frame_stats, h1], fun h2 => ?_⟩,
    transfer_frames_count payload mtu tid h, ?_⟩
  · obtain ⟨hpad, _, _, hceil⟩ := frame_stats_spec payload.length mtu h h2
    exact ⟨hceil, hpad⟩
  · intro tx t hm hok
    by_cases hres : tx.frame_queue.length +
        (calculate_frame_stats t.payload.length tx.mtu).frames ≤ tx.capacity
    · have hc := transfer_frames_count t.payload tx.mtu t.header.transfer_id
        (by rw [hm]; exact h)
      rw [hm] at hc
      rw [push_ok tx t (by rw [hm]; exact h) hres]
      simp [hc, hm]
    · rw [push_fail tx t hres] at hok; simp at hok

/-- Claim C3: on every successful push, every enqueued frame ends in a
tail byte whose transfer-id field is the header's transfer-id modulo 32,
whose toggle is 1 on even-indexed frames and 0 on odd ones (so it
alternates 1,0,1,0,… from the first frame), whose start flag marks
exactly the first frame, and whose end flag marks exactly the last
frame (both set for a single-frame transfer). -/
theorem claim_C3_tail_bytes {I : Type} (tx : Transmitter I) (t : Transfer I)
    (hmtu : SupportedMtu tx.mtu) (hok : (push tx t).2 = true) :
    ∀ i fr, ((push tx t).1.frame_queue.drop tx.frame_queue.length)[i]? = some fr →
      ∃ tb, fr.data.getLast? = some tb ∧
        tail_tid tb = t.header.transfer_id % 32 ∧
        tail_toggle tb = (if i % 2 = 0 then 1 else 0) ∧
        tail_start tb = (if i = 0 then 1 else 0) ∧
        tail_end tb =
          (if i + 1 = ((push tx t).1.frame_queue.drop tx.frame_queue.length).length then 1
            else 0) := by
  intro i fr hfr
  by_cases hres : tx.frame_queue.length +
      (calculate_frame_stats t.payload.length tx.mtu).frames ≤ tx.capacity
  case neg => rw [push_fail tx t hres] at hok; simp at hok
  rw [push_ok tx t hmtu hres] at hfr ⊢
  simp only [List.drop_left] at hfr ⊢
  rw [List.getElem?_map] at hfr
  cases hL : (transfer_frames t.payload tx.mtu t.header.transfer_id)[i]? with
  | none => rw [hL] at hfr; simp at hfr
  | some d =>
    rw [hL] at hfr
    simp only [Option.map_some'] at hfr
    obtain ⟨c, rfl⟩ := transfer_frames_tails t.payload tx.mtu t.header.transfer_id hmtu i d hL
    injection hfr with hfr
    subst hfr
    refine ⟨tail_byte (decide (i = 0))
      (decide (i + 1 = (transfer_frames t.payload tx.mtu t.header.transfer_id).length))
      (decide (i % 2 = 0)) t.header.transfer_id, ?_, ?_, ?_, ?_, ?_⟩
    · simp [List.getLast?_concat]
    · rw [tail_tid_eval]
    · rw [tail_toggle_eval]
      by_cases h2 : i % 2 = 0 <;> simp [h2]
    · rw [tail_start_eval]
      by_cases h0 : i = 0 <;> simp [h0]
    · rw [tail_end_eval]
      simp only [List.length_map]
      by_cases hl : i + 1 = (transfer_frames t.payload tx.mtu t.header.transfer_id).length <;>
        simp [hl]

/-- Claim C4: the 29-bit identifier packed by `make_can_id` matches the
section 4.1 bit layout (priority in bits 28..26, source in bits 6..0,
message: bit 25 = 0, bit 24 = anonymous, bits 23..21 = 011, subject in
bits 20..8; services: bit 25 = 1, bit 24 = request, service-id in bits
22..14, destination in bits 13..7; unused fields zero), for all headers
whose fields are within their declared widths. -/
theorem claim_C4_can_id_layout {I : Type} (h : Header I) (payload : List Nat)
    (hw : HeaderWidths h) : make_can_id h payload = can_id_layout h payload :=
  make_can_id_eq h payload hw

/-- Claim C5: a push that fails reports the failure at the `try_reserve`
capacity check, before any frame is emitted: the queue contents are
unchanged and no frame of the failed transfer is enqueued. -/
theorem claim_C5_reserve_atomicity {I : Type} (tx : Transmitter I) (t : Transfer I)
    (hmtu : SupportedMtu tx.mtu) (hfail : (push tx t).2 = false) :
    (push tx t).1.frame_queue = tx.frame_queue ∧
    tx.capacity < tx.frame_queue.length +
      (calculate_frame_stats t.payload.length tx.mtu).frames := by
  by_cases hres : tx.frame_queue.length +
      (calculate_frame_stats t.payload.length tx.mtu).frames ≤ tx.capacity
  · exfalso
    rw [push_ok tx t hmtu hres] at hfail
    exact absurd hfail (by simp)
  · refine ⟨?_, by omega⟩
    rw [push_fail tx t hres]

/-- Claim C6: for an anonymous message the source field of the CAN
identifier is the pseudo-id: the XOR fold of the payload bytes from
0x55, truncated to 7 bits, then decremented while diagnostic-reserved;
for payload `[0, 0, 0]` it is 0x55, and it is never
diagnostic-reserved. -/
theorem claim_C6_pseudo_id {I : Type} (ts : I) (pri subj tid : Nat) (payload : List Nat)
    (hpri : pri ≤ 7) (hsub : subj < 2 ^ 13) :
    make_can_id (Header.message
        { timestamp := ts, priority := pri, subject := subj, source := none,
            transfer_id := tid }) payload % 2 ^ 7 = make_pseudo_id payload ∧
    make_pseudo_id payload =
      skip_reserved (payload.foldl (fun state b => state ^^^ (b % 256)) 0x55 % 128) ∧
    make_pseudo_id [0, 0, 0] = 0x55 ∧
    ∀ p : List Nat, is_diagnostic_reserved (make_pseudo_id p) = false := by
  refine ⟨?_, rfl, by decide, fun p => make_pseudo_id_not_reserved p⟩
  have hw : HeaderWidths (Header.message
      ({ timestamp := ts, priority := pri, subject := subj, source := none,
            transfer_id := tid } : MessageHeader I)) := by
    simp only [HeaderWidths]
    exact ⟨hpri, hsub, trivial⟩
  rw [make_can_id_eq _ payload hw]
  simp only [can_id_layout]
  have hps := make_pseudo_id_lt payload
  omega

/-- Claim C7: a single-frame push (payload fits in `mtu - 1` bytes)
enqueues exactly one frame whose data is the payload followed by one
tail byte — no CRC bytes and no padding. -/
theorem claim_C7_single_frame_purity {I : Type} (tx : Transmitter I) (t : Transfer I)
    (hmtu : SupportedMtu tx.mtu) (hP : t.payload.length ≤ tx.mtu - 1)
    (hok : (push tx t).2 = true) :
    (push tx t).1.frame_queue.drop tx.frame_queue.length =
      [{ timestamp := t.header.timestamp, id := make_can_id t.header t.payload,
          data := t.payload ++ [tail_byte true true true t.header.transfer_id] }] := by
  by_cases hres : tx.frame_queue.length +
      (calculate_frame_stats t.payload.length tx.mtu).frames ≤ tx.capacity
  case neg => rw [push_fail tx t hres] at hok; simp at hok
  rw [push_ok tx t hmtu hres]
  simp only [List.drop_left]
  rw [transfer_frames_single t.payload tx.mtu t.header.transfer_id hP]
  simp

/-- Claim C8: for in-width header fields the packed identifier has its
top three bits clear, so the `CanId` conversion succeeds and the
overflow panic branch is unreachable. -/
theorem claim_C8_can_id_fits {I : Type} (h : Header I) (payload : List Nat)
    (hw : HeaderWidths h) :
    make_can_id h payload < 2 ^ 29 ∧
    can_id_try_from (make_can_id h payload) = some (make_can_id h payload) := by
  have hlt := make_can_id_lt h payload hw
  refine ⟨hlt, ?_⟩
  unfold can_id_try_from
  rw [if_pos hlt]

/-- Claim C9: every push changes exactly one counter: the transfer count
increments (wrapping modulo 2^64) on success, the error count on
failure, and the other counter is unchanged. -/
theorem claim_C9_counters {I : Type} (tx : Transmitter I) (t : Transfer I) :
    ((push tx t).1.transfer_count, (push tx t).1.error_count) =
      if (push tx t).2 then ((tx.transfer_count + 1) % 2 ^ 64, tx.error_count)
      else (tx.transfer_count, (tx.error_count + 1) % 2 ^ 64) := by
  simp only [push]
  by_cases hres : tx.frame_queue.length +
      (calculate_frame_stats t.payload.length tx.mtu).frames ≤ tx.capacity
  · simp only [if_pos hres]
    cases hb : (enqueue_frames tx.capacity tx.frame_queue t.header.timestamp
        (make_can_id t.header t.payload)
        (transfer_frames t.payload tx.mtu t.header.transfer_id)).2 <;>
      simp [hb]
  · simp [if_neg hres]

/-- Claim C10: the pseudo-id decrement loop terminates: on the 7-bit
domain (the diagnostic-reserved ids being a contiguous top range not
containing 0) it runs at most as many steps as the reserved range is
large — here two — every decremented value is reserved and positive (so
the `u8` subtraction never underflows), and the result is the first
non-reserved value. -/
theorem claim_C10_pseudo_id_termination (id : Nat) (hid : id < 128) :
    ∃ k, k ≤ 2 ∧ (∀ j, j < k → is_diagnostic_reserved (id - j) = true ∧ 0 < id - j) ∧
      is_diagnostic_reserved (id - k) = false ∧ skip_reserved id = id - k := by
  by_cases h1 : 126 ≤ id
  · have h2 : id = 126 ∨ id = 127 := by omega
    rcases h2 with rfl | rfl
    · exact ⟨1, by omega, by decide, by decide, by decide⟩
    · exact ⟨2, by omega, by decide, by decide, by decide⟩
  · refine ⟨0, by omega, fun j hj => absurd hj (Nat.not_lt_zero j), ?_, ?_⟩
    · simp only [Nat.sub_zero, is_diagnostic_reserved]
      simp
      omega
    · rw [Nat.sub_zero, skip_reserved_closed id hid, if_neg h1]

/-- Witness for C1: the two-frame scenario push at MTU 8. -/
theorem claim_C1_witness :
    SupportedMtu tx_ex.mtu ∧ tx_ex.mtu - 1 < msg_ex.payload.length ∧
    (push tx_ex msg_ex).2 = true ∧
    (((push tx_ex msg_ex).1.frame_queue.drop tx_ex.frame_queue.length).map
        (fun fr => fr.data.dropLast)).flatten.take msg_ex.payload.length = msg_ex.payload :=
  ⟨by decide, by decide, by decide,
    (claim_C1_payload_recoverability tx_ex msg_ex (by decide) (by decide) (by decide)).2⟩

/-- Witness for C2: ten payload bytes at MTU 8 give the computed frame
count. -/
theorem claim_C2_witness :
    SupportedMtu 8 ∧
    (transfer_frames (List.range 10) 8 0).length =
      (calculate_frame_stats (List.range 10).length 8).frames :=
  ⟨by decide, (claim_C2_frame_count (List.range 10) 8 0 (by decide)).2.1⟩

/-- Witness for C3: the first frame of the two-frame scenario push. -/
theorem claim_C3_witness :
    SupportedMtu tx_ex.mtu ∧ (push tx_ex msg_ex).2 = true ∧
    ((push tx_ex msg_ex).1.frame_queue.drop tx_ex.frame_queue.length)[0]? =
      some (Frame.mk () 275042858 [0, 1, 2, 3, 4, 5, 6, 167]) ∧
    (∃ tb, (Frame.mk () 275042858 [0, 1, 2, 3, 4, 5, 6, 167]).data.getLast? = some tb ∧
      tail_tid tb = msg_ex.header.transfer_id % 32 ∧
      tail_toggle tb = (if 0 % 2 = 0 then 1 else 0) ∧
      tail_start tb = (if 0 = 0 then 1 else 0) ∧
      tail_end tb =
        (if 0 + 1 = ((push tx_ex msg_ex).1.frame_queue.drop tx_ex.frame_queue.length).length
          then 1 else 0)) :=
  ⟨by decide, by decide, by decide,
    claim_C3_tail_bytes tx_ex msg_ex (by decide) (by decide) 0
      (Frame.mk () 275042858 [0, 1, 2, 3, 4, 5, 6, 167]) (by decide)⟩

/-- Witness for C4: the scenario S1 message header. -/
theorem claim_C4_witness :
    HeaderWidths msg_ex.header ∧
    make_can_id msg_ex.header msg_ex.payload = can_id_layout msg_ex.header msg_ex.payload :=
  ⟨by decide, claim_C4_can_id_layout msg_ex.header msg_ex.payload (by decide)⟩

/-- Witness for C5: scenario S5, a two-frame transfer against a queue of
capacity 1. -/
theorem claim_C5_witness :
    SupportedMtu tx_small_ex.mtu ∧ (push tx_small_ex msg_ex).2 = false ∧
    ((push tx_small_ex msg_ex).1.frame_queue = tx_small_ex.frame_queue ∧
      tx_small_ex.capacity < tx_small_ex.frame_queue.length +
        (calculate_frame_stats msg_ex.payload.length tx_small_ex.mtu).frames) :=
  ⟨by decide, by decide, claim_C5_reserve_atomicity tx_small_ex msg_ex (by decide) (by decide)⟩

/-- Witness for C6: scenario S2, an anonymous message with payload
`[0, 0, 0]`. -/
theorem claim_C6_witness :
    (4 : Nat) ≤ 7 ∧ (1234 : Nat) < 2 ^ 13 ∧
    make_can_id (Header.message
        ({ timestamp := (), priority := 4, subject := 1234, source := none,
            transfer_id := 3 } : MessageHeader Unit)) [0, 0, 0] % 2 ^ 7 =
      make_pseudo_id [0, 0, 0] :=
  ⟨by decide, by decide,
    (claim_C6_pseudo_id () 4 1234 3 [0, 0, 0] (by decide) (by decide)).1⟩

/-- Witness for C7: scenario S1, a four-byte single-frame message. -/
theorem claim_C7_witness :
    SupportedMtu tx_ex.mtu ∧ msg_single_ex.payload.length ≤ tx_ex.mtu - 1 ∧
    (push tx_ex msg_single_ex).2 = true ∧
    (push tx_ex msg_single_ex).1.frame_queue.drop tx_ex.frame_queue.length =
      [{ timestamp := msg_single_ex.header.timestamp,
          id := make_can_id msg_single_ex.header msg_single_ex.payload,
          data := msg_single_ex.payload ++
            [tail_byte true true true msg_single_ex.header.transfer_id] }] :=
  ⟨by decide, by decide, by decide,
    claim_C7_single_frame_purity tx_ex msg_single_ex (by decide) (by decide) (by decide)⟩

/-- Witness for C8: the scenario S1 message header fits in 29 bits. -/
theorem claim_C8_witness :
    HeaderWidths msg_ex.header ∧
    (make_can_id msg_ex.header msg_ex.payload < 2 ^ 29 ∧
      can_id_try_from (make_can_id msg_ex.header msg_ex.payload) =
        some (make_can_id msg_ex.header msg_ex.payload)) :=
  ⟨by decide, claim_C8_can_id_fits msg_ex.header msg_ex.payload (by decide)⟩

/-- Witness for C10: the topmost node-id 127 needs two decrements. -/
theorem claim_C10_witness :
    (127 : Nat) < 128 ∧
    ∃ k, k ≤ 2 ∧ (∀ j, j < k → is_diagnostic_reserved (127 - j) = true ∧ 0 < 127 - j) ∧
      is_diagnostic_reserved (127 - k) = false ∧ skip_reserved 127 = 127 - k :=
  ⟨by decide, claim_C10_pseudo_id_termination 127 (by decide)⟩

end CanTx
